import Mathlib

/-!
Verification of the champion-scraper core (`main.py`) against its
natural-language specification.  The Python code is shallowly embedded:
HTTP responses become explicit inputs (an `Option` models a non-success
status), the CSV file becomes a list of lines, the in-memory dedup set
becomes a list of strings, and the crawl loop becomes a fold over the
per-page oracle inputs.
-/

namespace Scraper

/-! ## Python string primitives -/

/-- Does `needle` match at the head of `hay`? (helper for substring search). -/
def matchesAt : List Char → List Char → Bool
  | [], _ => true
  | _ :: _, [] => false
  | a :: as, b :: bs => a == b && matchesAt as bs

/-- Python's `needle in hay` for strings: `needle` occurs contiguously in `hay`
(an empty needle always matches). -/
def containsSub (needle : List Char) : List Char → Bool
  | [] => needle.isEmpty
  | b :: bs => matchesAt needle (b :: bs) || containsSub needle bs

/-- Python `needle in hay` on `String`. -/
def pyIn (needle hay : String) : Bool :=
  containsSub needle.data hay.data

/-- Python `str.lower()` (ASCII-faithful). -/
def pyLower (s : String) : String :=
  String.mk (s.data.map Char.toLower)

/-- Python `str.capitalize()`: first character upper-cased, the rest lower-cased. -/
def pyCapitalize (s : String) : String :=
  match s.data with
  | [] => ""
  | c :: cs => String.mk (c.toUpper :: cs.map Char.toLower)

/-! ## Configuration lists (module-level constants in `main.py`) -/

def EXCLUDED_COMPANIES : List String :=
  ["google", "amazon", "microsoft", "facebook", "cognizant", "accenture",
   "tcs", "deloitte", "kpmg", "cloudflare", "linkedin", "uber"]

def EXCLUDED_INDUSTRIES : List String := ["fintech", "healthtech"]

def SENIORITY_KEYWORDS : List String :=
  ["staff engineer", "principal engineer", "senior manager", "director",
   "senior director", "engineer"]

def STARTUP_KEYWORDS : List String := ["advisor", "vc", "angel investor", "startup"]

/-! ## Qualification helpers (`extract_senior_title`, exclusion checks) -/

/-- The `for keyword in ...: if keyword in bio: return keyword` loop. -/
def findKeyword (b : String) : List String → Option String
  | [] => none
  | k :: ks => if pyIn k b then some k else findKeyword b ks

/-- Embeds `extract_senior_title(bio)` from `main.py`: lower-case the bio, scan the
seniority keywords in order (first match wins, capitalized), then the startup
keywords (fixed label), else `None`. -/
def extract_senior_title (bio : String) : Option String :=
  let b := pyLower bio
  match findKeyword b SENIORITY_KEYWORDS with
  | some keyword => some (pyCapitalize keyword)
  | none =>
    match findKeyword b STARTUP_KEYWORDS with
    | some _ => some "Startup/VC involvement"
    | none => none

/-- Modelled from the spec: role extraction as a case-insensitive first-match
scan of the ordered seniority list, then any-match over the startup list. -/
def roleExtractionSpec (bio : String) : Option String :=
  match SENIORITY_KEYWORDS.find? (fun k => pyIn (pyLower k) (pyLower bio)) with
  | some k => some (pyCapitalize k)
  | none =>
    if STARTUP_KEYWORDS.any (fun k => pyIn (pyLower k) (pyLower bio)) then
      some "Startup/VC involvement"
    else none

/-- Embeds `is_excluded_company(company_name)` from `main.py`. -/
def is_excluded_company (company_name : String) : Bool :=
  if company_name = "" then false
  else EXCLUDED_COMPANIES.any (fun excluded => pyIn excluded (pyLower company_name))

/-- Embeds `is_excluded_industry(bio)` from `main.py`. -/
def is_excluded_industry (bio : String) : Bool :=
  if bio = "" then false
  else EXCLUDED_INDUSTRIES.any (fun excluded => pyIn excluded (pyLower bio))

/-! ## Activity signal (`get_recent_commit_count`) -/

/-- One entry of the public-events feed; `created_at` is the parsed UTC
timestamp in seconds since the epoch. -/
structure Event where
  type : String
  created_at : Int
deriving DecidableEq

/-- Embeds `get_recent_commit_count(username)` from `main.py`.  The events-feed
response is an explicit input: `none` models a non-200 status (the code then
returns 0), `some events` the parsed JSON body.  `now` is the current time in
seconds; `timedelta(days=30)` is exactly `30 * 86400` seconds. -/
def get_recent_commit_count (now : Int) (resp : Option (List Event)) : Nat :=
  let last_month := now - 30 * 86400
  match resp with
  | some events =>
    events.foldl (fun commit_count event =>
      if event.type = "PushEvent" then
        if last_month ≤ event.created_at then commit_count + 1 else commit_count
      else commit_count) 0
  | none => 0

/-- Modelled from the spec: the number of push-type events whose timestamp is
at or after `now - 30 days`. -/
def commitCountSpec (now : Int) (events : List Event) : Nat :=
  (events.filter (fun e =>
    e.type == "PushEvent" && decide (now - 30 * 86400 ≤ e.created_at))).length

/-! ## Persistence sink and dedup ledger -/

/-- A persisted record (the `profile_info` dictionary built in `scrape_github`). -/
structure Record where
  name : String
  location : String
  followers : Nat
  repos : Nat
  url : String
  recent_commits : Nat
  role : String
deriving DecidableEq

/-- One line of the CSV file: the header written by `writer.writeheader()` or
a data row written by `writer.writerow(profile)`. -/
inductive FileLine where
  | header
  | data (r : Record)
deriving DecidableEq

/-- The header text produced by `DictWriter.writeheader()`. -/
def csvHeaderText : String := "name,location,followers,repos,url,recent_commits,role"

/-- The text of one data row (comma-joined field values). -/
def recordText (r : Record) : String :=
  r.name ++ "," ++ r.location ++ "," ++ toString r.followers ++ "," ++
    toString r.repos ++ "," ++ r.url ++ "," ++ toString r.recent_commits ++ "," ++ r.role

/-- The characters one line contributes to the file, terminator included. -/
def lineChars : FileLine → List Char
  | FileLine.header => (csvHeaderText ++ "\n").data
  | FileLine.data r => (recordText r ++ "\n").data

/-- The byte-level (character-level) content of the whole file. -/
def render : List FileLine → List Char
  | [] => []
  | l :: ls => lineChars l ++ render ls

/-- Embeds `append_to_csv(profile)` from `main.py`: the file is opened in append
mode, so `file.tell() == 0` holds exactly when the file is empty; in that
case a header row is written first, then the record row is appended. -/
def append_to_csv (file : List FileLine) (profile : Record) : List FileLine :=
  if file.isEmpty then [FileLine.header, FileLine.data profile]
  else file ++ [FileLine.data profile]

/-- Embeds `load_existing_users(csv_file)` from `main.py`: `csv.DictReader` consumes
the first line as the header and yields the remaining rows; the `name` column
of each row is added to the set.  A missing or empty file yields the empty
set (the `FileNotFoundError` branch prints and returns the empty set). -/
def load_existing_users (file : List FileLine) : List String :=
  match file with
  | [] => []
  | _ :: rows => rows.filterMap (fun l =>
      match l with
      | FileLine.header => none
      | FileLine.data r => some r.name)

/-- The `name` column of every data row of a file. -/
def fileNames (file : List FileLine) : List String :=
  file.filterMap (fun l =>
    match l with
    | FileLine.header => none
    | FileLine.data r => some r.name)

/-! ## Profile source and per-candidate pipeline -/

/-- The fields of a user-lookup response that `scrape_github` reads.  A field
that is absent or JSON `null` is modelled as `""` (both are falsy in the
Python checks that consume them). -/
structure Profile where
  login : String
  company : String
  bio : String
  location : String
  followers : Nat
  public_repos : Nat
  html_url : String
deriving DecidableEq

/-- The external responses consumed while handling one search item:
`profileResp = none` models a non-200 user-lookup status
(`get_github_profile_data` returns `None`), `eventsResp = none` a non-200
events-feed status. -/
structure CandidateInput where
  login : String
  profileResp : Option Profile
  eventsResp : Option (List Event)
deriving DecidableEq

/-- A network call issued while handling one candidate, in issue order. -/
inductive NetCall where
  | fetchProfile (login : String)
  | fetchEvents (login : String)
deriving DecidableEq

/-- The outcome of the qualification pipeline for one candidate (each
constructor corresponds to one `continue`/branch of the loop body). -/
inductive Verdict where
  | fetchFailed
  | alreadyKnown
  | excludedCompany
  | excludedIndustry
  | noSeniorSignal
  | insufficientActivity (n : Nat)
  | admitted (role : String) (n : Nat)
deriving DecidableEq

/-- The mutable state threaded through the run: the in-memory
`existing_users` set and the `champions.csv` content. -/
structure ScrapeState where
  existing : List String
  file : List FileLine
deriving DecidableEq

/-- The `profile_info` dictionary built at `main.py` lines 103-111. -/
def mkRecord (username : String) (pd : Profile) (role : String) (commits : Nat) : Record :=
  { name := username, location := pd.location, followers := pd.followers,
    repos := pd.public_repos, url := pd.html_url,
    recent_commits := commits, role := role }

/-- The body of the `for profile in data['items']` loop (`main.py` lines
79-122), for a single item.  Returns the updated state, the verdict, and the
trace of network calls in the order the code issues them: the profile lookup
is issued first (line 80), before the dedup check (line 84); the events feed
is fetched only inside the `profile_info` construction (line 109), after the
role check. -/
def processCandidate (now : Int) (st : ScrapeState) (c : CandidateInput) :
    ScrapeState × Verdict × List NetCall :=
  match c.profileResp with
  | none => (st, Verdict.fetchFailed, [NetCall.fetchProfile c.login])
  | some pd =>
    if st.existing.contains c.login then
      (st, Verdict.alreadyKnown, [NetCall.fetchProfile c.login])
    else if is_excluded_company pd.company then
      (st, Verdict.excludedCompany, [NetCall.fetchProfile c.login])
    else if is_excluded_industry pd.bio then
      (st, Verdict.excludedIndustry, [NetCall.fetchProfile c.login])
    else
      match extract_senior_title pd.bio with
      | none => (st, Verdict.noSeniorSignal, [NetCall.fetchProfile c.login])
      | some role =>
        let commits := get_recent_commit_count now c.eventsResp
        if 5 ≤ commits then
          ({ existing := c.login :: st.existing,
             file := append_to_csv st.file (mkRecord c.login pd role commits) },
           Verdict.admitted role commits,
           [NetCall.fetchProfile c.login, NetCall.fetchEvents pd.login])
        else
          (st, Verdict.insufficientActivity commits,
           [NetCall.fetchProfile c.login, NetCall.fetchEvents pd.login])

/-- The whole `for profile in data['items']` loop. -/
def processPage (now : Int) : ScrapeState → List CandidateInput → ScrapeState
  | st, [] => st
  | st, c :: cs => processPage now (processCandidate now st c).1 cs

/-! ## Rate limiter and crawl loop -/

/-- The `/rate_limit` response: its HTTP status and the two fields the code
reads from the body. -/
structure RateLimitResponse where
  status : Nat
  search_remaining : Nat
  search_reset : Int
deriving DecidableEq

/-- Embeds `check_rate_limit()` from `main.py`: on status 200 it returns the pair
`(remaining, reset)`; on any other status it prints a message and falls off
the end of the function, returning `None`. -/
def check_rate_limit (resp : RateLimitResponse) : Option (Nat × Int) :=
  if resp.status = 200 then some (resp.search_remaining, resp.search_reset)
  else none

/-- The rate-limit gate at `main.py` lines 47-52.  If `search_remaining` is
zero the code computes `reset - now` and passes it to `time.sleep`; a
negative argument makes `time.sleep` raise `ValueError`, modelled as `none`.
Otherwise `some w` is the number of seconds slept (`0` = no wait). -/
def rateLimitWait (search_remaining : Nat) (search_reset now : Int) : Option Int :=
  if search_remaining = 0 then
    let wait_time := search_reset - now
    if wait_time < 0 then none
    else some wait_time
  else some 0

/-- The oracle inputs for one invocation of `scrape_github`: the rate-limit
probe response, the search-request status, and the parsed page items (each
with its own downstream responses). -/
structure PageInput where
  rateLimit : RateLimitResponse
  searchStatus : Nat
  items : List CandidateInput
deriving DecidableEq

/-- The result of one `scrape_github` invocation.  `crash msg` models an
uncaught Python exception, `retrySamePage` the 403 branch (sleep 60 s, then
the recursive call on the same page), `done b st` a normal return of `b`
(`True` = keep crawling) with final state `st`. -/
inductive Outcome where
  | crash (msg : String)
  | retrySamePage (st : ScrapeState)
  | done (cont : Bool) (st : ScrapeState)
deriving DecidableEq

/-- Embeds `scrape_github(existing_users, page)` from `main.py`, one invocation.
The tuple unpacking at line 45 raises `TypeError` when `check_rate_limit`
returned `None`; the order of the remaining branches follows lines 47-125. -/
def scrape_github (now : Int) (st : ScrapeState) (inp : PageInput) : Outcome :=
  match check_rate_limit inp.rateLimit with
  | none => Outcome.crash "TypeError"
  | some (search_remaining, search_reset) =>
    match rateLimitWait search_remaining search_reset now with
    | none => Outcome.crash "ValueError"
    | some _ =>
      if inp.searchStatus = 403 then Outcome.retrySamePage st
      else if inp.searchStatus = 200 then
        if inp.items.isEmpty then Outcome.done false st
        else Outcome.done true (processPage now st inp.items)
      else Outcome.done true st

/-- The `__main__` driver loop (`main.py` lines 189-196) over a finite list
of oracle page inputs: each consumed input is one fetched page.  Returns the
list of page numbers fetched and the final state.  `done true` advances the
page counter, `done false` stops, the 403 branch retries the same page
number, and a crash aborts the process. -/
def runCrawl (now : Int) : ScrapeState → List PageInput → Nat → List Nat × ScrapeState
  | st, [], _ => ([], st)
  | st, p :: ps, page =>
    match scrape_github now st p with
    | Outcome.done true st' =>
      let r := runCrawl now st' ps (page + 1)
      (page :: r.1, r.2)
    | Outcome.done false st' => ([page], st')
    | Outcome.retrySamePage st' =>
      let r := runCrawl now st' ps page
      (page :: r.1, r.2)
    | Outcome.crash _ => ([page], st)

/-! ## Helper lemmas -/

theorem findKeyword_eq_find? (b : String) :
    ∀ l : List String, findKeyword b l = l.find? (fun k => pyIn k b)
  | [] => rfl
  | k :: ks => by
    simp only [findKeyword, List.find?_cons]
    cases h : pyIn k b
    · simpa [h] using findKeyword_eq_find? b ks
    · simp [h]

theorem find?_congrOn {α : Type} (p q : α → Bool) :
    ∀ l : List α, (∀ k, k ∈ l → p k = q k) → l.find? p = l.find? q
  | [], _ => rfl
  | a :: l, h => by
    have ha := h a (List.mem_cons_self a l)
    simp only [List.find?_cons, ha]
    cases hqa : q a
    · exact find?_congrOn p q l (fun k hk => h k (List.mem_cons_of_mem a hk))
    · rfl

theorem any_eq_isSome_find? {α : Type} (p : α → Bool) :
    ∀ l : List α, l.any p = (l.find? p).isSome
  | [] => rfl
  | a :: l => by
    simp only [List.any_cons, List.find?_cons]
    cases hpa : p a
    · simpa using any_eq_isSome_find? p l
    · rfl

theorem seniority_lower_fixed : ∀ k ∈ SENIORITY_KEYWORDS, pyLower k = k := by
  intro k hk
  fin_cases hk <;> rfl

theorem startup_lower_fixed : ∀ k ∈ STARTUP_KEYWORDS, pyLower k = k := by
  intro k hk
  fin_cases hk <;> rfl

theorem extract_senior_title_eq_spec (bio : String) :
    extract_senior_title bio = roleExtractionSpec bio := by
  have h1 : (SENIORITY_KEYWORDS.find? fun k => pyIn (pyLower k) (pyLower bio))
      = SENIORITY_KEYWORDS.find? fun k => pyIn k (pyLower bio) :=
    find?_congrOn _ _ _ (fun k hk => by rw [seniority_lower_fixed k hk])
  have h2 : (STARTUP_KEYWORDS.find? fun k => pyIn (pyLower k) (pyLower bio))
      = STARTUP_KEYWORDS.find? fun k => pyIn k (pyLower bio) :=
    find?_congrOn _ _ _ (fun k hk => by rw [startup_lower_fixed k hk])
  have h3 := any_eq_isSome_find? (fun k => pyIn (pyLower k) (pyLower bio)) STARTUP_KEYWORDS
  simp only [extract_senior_title, roleExtractionSpec, findKeyword_eq_find?, h1, h2, h3]
  cases SENIORITY_KEYWORDS.find? fun k => pyIn k (pyLower bio)
  · cases h : STARTUP_KEYWORDS.find? fun k => pyIn k (pyLower bio) <;> simp [h]
  · rfl

/-- Claim C5: role extraction is a case-insensitive substring scan of the
ordered seniority list where the first match wins and its capitalized form is
the label; otherwise any startup-keyword match yields the fixed label
"Startup/VC involvement"; an empty or unmatched bio yields no role (the
`NoSeniorSignal` outcome); "Director of Platform Engineering" yields
"Director". -/
theorem C5_role_extraction :
    (∀ bio, extract_senior_title bio = roleExtractionSpec bio) ∧
    extract_senior_title "" = none ∧
    extract_senior_title "Director of Platform Engineering" = some "Director" ∧
    extract_senior_title "Angel Investor in residence" = some "Startup/VC involvement" ∧
    extract_senior_title "just a plain coder" = none :=
  ⟨extract_senior_title_eq_spec, by decide, by decide, by decide, by decide⟩

theorem commit_foldl_eq (now : Int) :
    ∀ (l : List Event) (acc : Nat),
      l.foldl (fun commit_count event =>
        if event.type = "PushEvent" then
          if now - 30 * 86400 ≤ event.created_at then commit_count + 1 else commit_count
        else commit_count) acc
      = acc + commitCountSpec now l
  | [], acc => by simp [commitCountSpec]
  | e :: l, acc => by
    rw [List.foldl_cons]
    by_cases h1 : e.type = "PushEvent"
    · by_cases h2 : now - 30 * 86400 ≤ e.created_at
      · rw [if_pos h1, if_pos h2, commit_foldl_eq now l (acc + 1)]
        have hc : commitCountSpec now (e :: l) = commitCountSpec now l + 1 := by
          simp only [commitCountSpec, List.filter_cons]
          rw [if_pos (by rw [h1, decide_eq_true h2]; rfl), List.length_cons]
        omega
      · rw [if_pos h1, if_neg h2, commit_foldl_eq now l acc]
        have hc : commitCountSpec now (e :: l) = commitCountSpec now l := by
          simp only [commitCountSpec, List.filter_cons]
          rw [if_neg (by rw [decide_eq_false h2]; simp)]
        omega
    · rw [if_neg h1, commit_foldl_eq now l acc]
      have hc : commitCountSpec now (e :: l) = commitCountSpec now l := by
        simp only [commitCountSpec, List.filter_cons]
        rw [if_neg (by simp [h1])]
      omega

/-- Claim C8: the recent-commit count is the number of events whose type is
"PushEvent" and whose timestamp is at or after `now - 30 days` (inclusive
bound: 30 days minus one second old counts, 31 days old does not), and a
non-success events-fetch yields 0. -/
theorem C8_recent_commit_count :
    (∀ now : Int, get_recent_commit_count now none = 0) ∧
    (∀ (now : Int) (events : List Event),
      get_recent_commit_count now (some events) = commitCountSpec now events) ∧
    (∀ now : Int, get_recent_commit_count now
      (some [{ type := "PushEvent", created_at := now - (30 * 86400 - 1) }]) = 1) ∧
    (∀ now : Int, get_recent_commit_count now
      (some [{ type := "PushEvent", created_at := now - 30 * 86400 }]) = 1) ∧
    (∀ now : Int, get_recent_commit_count now
      (some [{ type := "PushEvent", created_at := now - 31 * 86400 }]) = 0) ∧
    (∀ now : Int, get_recent_commit_count now
      (some [{ type := "WatchEvent", created_at := now }]) = 0) := by
  refine ⟨fun now => rfl, fun now events => ?_, fun now => ?_, fun now => ?_,
    fun now => ?_, fun now => ?_⟩
  · have h := commit_foldl_eq now events 0
    simpa [get_recent_commit_count] using h
  · simp only [get_recent_commit_count, List.foldl_cons, List.foldl_nil, if_true]
    rw [if_pos (by omega)]
  · simp only [get_recent_commit_count, List.foldl_cons, List.foldl_nil, if_true]
    rw [if_pos (by omega)]
  · simp only [get_recent_commit_count, List.foldl_cons, List.foldl_nil, if_true]
    rw [if_neg (by omega)]
  · simp only [get_recent_commit_count, List.foldl_cons, List.foldl_nil]
    rw [if_neg (by decide)]

/-- Claim C6: company/industry exclusion (case-insensitive substring, empty
field never excludes) runs before role extraction, so a bio with a blocked
industry term is rejected as `ExcludedIndustry` even when seniority or
startup keywords are present; in particular "Senior engineer, ex-fintech
advisor" is excluded although role extraction would match it. -/
theorem C6_exclusion_precedes_role :
    (∀ (now : Int) (st : ScrapeState) (c : CandidateInput) (pd : Profile),
      c.profileResp = some pd →
      st.existing.contains c.login = false →
      is_excluded_company pd.company = false →
      is_excluded_industry pd.bio = true →
      processCandidate now st c = (st, Verdict.excludedIndustry, [NetCall.fetchProfile c.login])) ∧
    is_excluded_company "" = false ∧
    is_excluded_industry "" = false ∧
    is_excluded_industry "Senior engineer, ex-fintech advisor" = true ∧
    extract_senior_title "Senior engineer, ex-fintech advisor" = some "Engineer" := by
  refine ⟨?_, by decide, by decide, by decide, by decide⟩
  intro now st c pd h hd hco hin
  replace hd : c.login ∉ st.existing := by simpa using hd
  simp [processCandidate, h, hd, hco, hin]

def c6Profile : Profile :=
  { login := "u6", company := "", bio := "Senior engineer, ex-fintech advisor",
    location := "", followers := 0, public_repos := 0, html_url := "" }

theorem C6_exclusion_precedes_role_witness :
    processCandidate 0 { existing := [], file := [] }
      { login := "u6", profileResp := some c6Profile, eventsResp := none }
      = ({ existing := [], file := [] }, Verdict.excludedIndustry, [NetCall.fetchProfile "u6"]) :=
  C6_exclusion_precedes_role.1 0 { existing := [], file := [] }
    { login := "u6", profileResp := some c6Profile, eventsResp := none } c6Profile
    rfl rfl (by decide) (by decide)

/-- Claim C7: after all earlier stages pass, the activity threshold is
inclusive: a recent-commit count of 5 or more admits the candidate and
appends the record; a count below 5 rejects as `InsufficientActivity` with
nothing appended. -/
theorem C7_activity_threshold :
    ∀ (now : Int) (st : ScrapeState) (c : CandidateInput) (pd : Profile) (role : String),
      c.profileResp = some pd →
      st.existing.contains c.login = false →
      is_excluded_company pd.company = false →
      is_excluded_industry pd.bio = false →
      extract_senior_title pd.bio = some role →
      (5 ≤ get_recent_commit_count now c.eventsResp →
        processCandidate now st c =
          ({ existing := c.login :: st.existing,
             file := append_to_csv st.file
               (mkRecord c.login pd role (get_recent_commit_count now c.eventsResp)) },
           Verdict.admitted role (get_recent_commit_count now c.eventsResp),
           [NetCall.fetchProfile c.login, NetCall.fetchEvents pd.login])) ∧
      (get_recent_commit_count now c.eventsResp < 5 →
        processCandidate now st c =
          (st, Verdict.insufficientActivity (get_recent_commit_count now c.eventsResp),
           [NetCall.fetchProfile c.login, NetCall.fetchEvents pd.login])) := by
  intro now st c pd role h hd hco hin hrole
  replace hd : c.login ∉ st.existing := by simpa using hd
  constructor
  · intro hge
    simp [processCandidate, h, hd, hco, hin, hrole, hge]
  · intro hlt
    simp [processCandidate, h, hd, hco, hin, hrole, Nat.not_le.mpr hlt]

def c7Profile : Profile :=
  { login := "u7", company := "", bio := "director of things", location := "x",
    followers := 1, public_repos := 2, html_url := "u" }

def c7Event : Event := { type := "PushEvent", created_at := 0 }

theorem C7_activity_threshold_witness :
    (processCandidate 0 { existing := [], file := [] }
        { login := "u7", profileResp := some c7Profile,
          eventsResp := some [c7Event, c7Event, c7Event, c7Event, c7Event] }
      = ({ existing := ["u7"],
           file := [FileLine.header, FileLine.data (mkRecord "u7" c7Profile "Director" 5)] },
         Verdict.admitted "Director" 5,
         [NetCall.fetchProfile "u7", NetCall.fetchEvents "u7"])) ∧
    (processCandidate 0 { existing := [], file := [] }
        { login := "u7", profileResp := some c7Profile,
          eventsResp := some [c7Event, c7Event, c7Event, c7Event] }
      = ({ existing := [], file := [] },
         Verdict.insufficientActivity 4,
         [NetCall.fetchProfile "u7", NetCall.fetchEvents "u7"])) := by
  constructor
  · have h := (C7_activity_threshold 0 { existing := [], file := [] }
      { login := "u7", profileResp := some c7Profile,
        eventsResp := some [c7Event, c7Event, c7Event, c7Event, c7Event] }
      c7Profile "Director" rfl rfl (by decide) (by decide) (by decide)).1 (by decide)
    exact h.trans (by decide)
  · have h := (C7_activity_threshold 0 { existing := [], file := [] }
      { login := "u7", profileResp := some c7Profile,
        eventsResp := some [c7Event, c7Event, c7Event, c7Event] }
      c7Profile "Director" rfl rfl (by decide) (by decide) (by decide)).2 (by decide)
    exact h.trans (by decide)

/-- The number of profile-lookup calls in a trace. -/
def profileFetches (t : List NetCall) : Nat :=
  (t.filter (fun x => match x with | NetCall.fetchProfile _ => true | _ => false)).length

theorem processCandidate_trace (now : Int) (st : ScrapeState) (c : CandidateInput)
    (pd : Profile) (hp : c.profileResp = some pd) :
    (processCandidate now st c).2.2 = [NetCall.fetchProfile c.login] ∨
    (processCandidate now st c).2.2
      = [NetCall.fetchProfile c.login, NetCall.fetchEvents pd.login] := by
  by_cases hd : c.login ∈ st.existing
  · simp [processCandidate, hp, hd]
  · cases hco : is_excluded_company pd.company
    · cases hin : is_excluded_industry pd.bio
      · cases hrole : extract_senior_title pd.bio
        · simp [processCandidate, hp, hd, hco, hin, hrole]
        · by_cases hge : 5 ≤ get_recent_commit_count now c.eventsResp
          · simp [processCandidate, hp, hd, hco, hin, hrole, hge]
          · simp [processCandidate, hp, hd, hco, hin, hrole, hge]
      · simp [processCandidate, hp, hd, hco, hin]
    · simp [processCandidate, hp, hd, hco]

/-- Claim C10: the profile lookup is issued before the dedup check — every
candidate costs exactly one profile fetch (even an identity already in the
ledger), and a failed profile fetch yields `fetchFailed` rather than
`alreadyKnown` for a known identity. -/
theorem C10_fetch_before_dedup :
    ∀ (now : Int) (st : ScrapeState) (c : CandidateInput),
      ((processCandidate now st c).2.2).head? = some (NetCall.fetchProfile c.login) ∧
      profileFetches (processCandidate now st c).2.2 = 1 ∧
      (c.profileResp = none → (processCandidate now st c).2.1 = Verdict.fetchFailed) := by
  intro now st c
  cases hp : c.profileResp with
  | none =>
    refine ⟨?_, ?_, fun _ => ?_⟩ <;> simp [processCandidate, hp, profileFetches]
  | some pd =>
    rcases processCandidate_trace now st c pd hp with h | h
    · exact ⟨by simp [h], by simp [h, profileFetches],
        fun hn => absurd hn (Option.some_ne_none pd)⟩
    · exact ⟨by simp [h], by simp [h, profileFetches],
        fun hn => absurd hn (Option.some_ne_none pd)⟩

theorem C10_fetch_before_dedup_witness :
    ((processCandidate 0 { existing := ["alice"], file := [] }
        { login := "alice", profileResp := none, eventsResp := none }).2.2).head?
      = some (NetCall.fetchProfile "alice") ∧
    profileFetches (processCandidate 0 { existing := ["alice"], file := [] }
        { login := "alice", profileResp := none, eventsResp := none }).2.2 = 1 ∧
    (processCandidate 0 { existing := ["alice"], file := [] }
        { login := "alice", profileResp := none, eventsResp := none }).2.1
      = Verdict.fetchFailed := by
  obtain ⟨h1, h2, h3⟩ := C10_fetch_before_dedup 0 { existing := ["alice"], file := [] }
    { login := "alice", profileResp := none, eventsResp := none }
  exact ⟨h1, h2, h3 rfl⟩

theorem render_append : ∀ a b : List FileLine, render (a ++ b) = render a ++ render b
  | [], b => rfl
  | l :: a, b => by
    show lineChars l ++ render (a ++ b) = (lineChars l ++ render a) ++ render b
    rw [render_append a b, List.append_assoc]

/-- Claim C9: on an empty file the sink writes exactly one header row then
one data row; on a non-empty file it appends exactly one data row and no
header; in both cases the previous content stays a byte-for-byte prefix. -/
theorem C9_persistence_sink :
    (∀ r : Record, append_to_csv [] r = [FileLine.header, FileLine.data r]) ∧
    (∀ (f : List FileLine) (r : Record), f ≠ [] →
      append_to_csv f r = f ++ [FileLine.data r]) ∧
    (∀ (f : List FileLine) (r : Record), ∃ t,
      render (append_to_csv f r) = render f ++ t) := by
  refine ⟨fun r => rfl, fun f r hf => ?_, fun f r => ?_⟩
  · simp [append_to_csv, hf]
  · by_cases hf : f = []
    · subst hf
      exact ⟨render [FileLine.header, FileLine.data r], rfl⟩
    · refine ⟨render [FileLine.data r], ?_⟩
      rw [show append_to_csv f r = f ++ [FileLine.data r] from by simp [append_to_csv, hf],
        render_append]

def c9Rec : Record :=
  { name := "r", location := "l", followers := 1, repos := 2, url := "u",
    recent_commits := 5, role := "Director" }

theorem C9_persistence_sink_witness :
    append_to_csv [] c9Rec = [FileLine.header, FileLine.data c9Rec] ∧
    append_to_csv [FileLine.header] c9Rec = [FileLine.header, FileLine.data c9Rec] ∧
    (∃ t, render (append_to_csv [FileLine.header] c9Rec)
      = render [FileLine.header] ++ t) := by
  refine ⟨C9_persistence_sink.1 c9Rec, ?_, C9_persistence_sink.2.2 [FileLine.header] c9Rec⟩
  have h := C9_persistence_sink.2.1 [FileLine.header] c9Rec (by simp)
  simpa using h

/-- Claim C3 (code bug): a non-success rate-limit probe does not fail soft.
`check_rate_limit` prints a warning and returns `None`, and the tuple
unpacking at the call site raises `TypeError`, so the crawl hard-fails
instead of proceeding with quota treated as unknown. -/
theorem C3_probe_failure_crashes :
    ∀ (now : Int) (st : ScrapeState) (inp : PageInput), inp.rateLimit.status ≠ 200 →
      check_rate_limit inp.rateLimit = none ∧
      scrape_github now st inp = Outcome.crash "TypeError" := by
  intro now st inp h
  have hc : check_rate_limit inp.rateLimit = none := by
    simp [check_rate_limit, h]
  exact ⟨hc, by simp [scrape_github, hc]⟩

theorem C3_probe_failure_crashes_witness :
    check_rate_limit { status := 500, search_remaining := 3, search_reset := 0 } = none ∧
    scrape_github 0 { existing := [], file := [] }
      { rateLimit := { status := 500, search_remaining := 3, search_reset := 0 },
        searchStatus := 200, items := [] } = Outcome.crash "TypeError" :=
  C3_probe_failure_crashes 0 { existing := [], file := [] }
    { rateLimit := { status := 500, search_remaining := 3, search_reset := 0 },
      searchStatus := 200, items := [] } (by decide)

/-- Claim C4 (code bug): when quota is exhausted the code sleeps for the
unclamped `reset - now`: with a future reset it blocks exactly that long and
with a non-zero quota it proceeds without waiting, but with a reset in the
past `time.sleep` receives a negative duration and raises `ValueError`
(crashing the crawl) instead of the claimed `max(0, resetAt - now)` wait. -/
theorem C4_exhausted_wait :
    (∀ reset now : Int, reset < now → rateLimitWait 0 reset now = none) ∧
    (∀ reset now : Int, now ≤ reset → rateLimitWait 0 reset now = some (reset - now)) ∧
    (∀ (remaining : Nat) (reset now : Int), remaining ≠ 0 →
      rateLimitWait remaining reset now = some 0) ∧
    (∀ (now : Int) (st : ScrapeState) (inp : PageInput),
      inp.rateLimit.status = 200 → inp.rateLimit.search_remaining = 0 →
      inp.rateLimit.search_reset < now →
      scrape_github now st inp = Outcome.crash "ValueError") := by
  refine ⟨fun reset now h => ?_, fun reset now h => ?_, fun remaining reset now h => ?_,
    fun now st inp h0 h1 h2 => ?_⟩
  · simp only [rateLimitWait, if_pos rfl, if_true]
    rw [if_pos (show reset - now < 0 by omega)]
  · simp only [rateLimitWait, if_pos rfl, if_true]
    rw [if_neg (show ¬(reset - now < 0) by omega)]
  · simp [rateLimitWait, h]
  · have hc : check_rate_limit inp.rateLimit
        = some (inp.rateLimit.search_remaining, inp.rateLimit.search_reset) := by
      simp [check_rate_limit, h0]
    have hw : rateLimitWait inp.rateLimit.search_remaining inp.rateLimit.search_reset now
        = none := by
      simp only [rateLimitWait, h1, if_pos rfl, if_true]
      rw [if_pos (show inp.rateLimit.search_reset - now < 0 by omega)]
    simp [scrape_github, hc, hw]

theorem C4_exhausted_wait_witness :
    rateLimitWait 0 0 60 = none ∧
    rateLimitWait 0 100 40 = some 60 ∧
    rateLimitWait 7 0 60 = some 0 ∧
    scrape_github 60 { existing := [], file := [] }
      { rateLimit := { status := 200, search_remaining := 0, search_reset := 0 },
        searchStatus := 200, items := [] } = Outcome.crash "ValueError" :=
  ⟨C4_exhausted_wait.1 0 60 (by decide),
   by simpa using C4_exhausted_wait.2.1 100 40 (by decide),
   C4_exhausted_wait.2.2.1 7 0 60 (by decide),
   C4_exhausted_wait.2.2.2 60 { existing := [], file := [] }
     { rateLimit := { status := 200, search_remaining := 0, search_reset := 0 },
       searchStatus := 200, items := [] } rfl rfl (by decide)⟩

def c1ErrPage : PageInput :=
  { rateLimit := { status := 200, search_remaining := 10, search_reset := 0 },
    searchStatus := 500, items := [] }

def c1EmptyPage : PageInput :=
  { rateLimit := { status := 200, search_remaining := 10, search_reset := 0 },
    searchStatus := 200, items := [] }

/-- Claim C1 counterexample: after page 1 answers with status 500 (neither
200 nor 403), `scrape_github` returns `True` and the driver fetches page 2 —
the crawl does not terminate on a fatal status as claimed. -/
theorem C1_counterexample :
    scrape_github 0 { existing := [], file := [] } c1ErrPage
      = Outcome.done true { existing := [], file := [] } ∧
    (runCrawl 0 { existing := [], file := [] } [c1ErrPage, c1EmptyPage] 1).1 = [1, 2] := by
  exact ⟨by decide, by decide⟩

/-- Claim C1 (amended): on a page-fetch status that is neither 200 nor 403
the loop prints the error, leaves the state unchanged and returns `True`
(continue), so the driver advances to the next page instead of terminating
the crawl. -/
theorem C1_error_continues :
    ∀ (now : Int) (st : ScrapeState) (inp : PageInput) (n : Nat) (ps : List PageInput),
      inp.searchStatus ≠ 403 → inp.searchStatus ≠ 200 →
      inp.rateLimit.status = 200 → inp.rateLimit.search_remaining ≠ 0 →
      scrape_github now st inp = Outcome.done true st ∧
      (runCrawl now st (inp :: ps) n).1 = n :: (runCrawl now st ps (n + 1)).1 := by
  intro now st inp n ps h403 h200 hrs hrem
  have hc : check_rate_limit inp.rateLimit
      = some (inp.rateLimit.search_remaining, inp.rateLimit.search_reset) := by
    simp [check_rate_limit, hrs]
  have hw : rateLimitWait inp.rateLimit.search_remaining inp.rateLimit.search_reset now
      = some 0 := by simp [rateLimitWait, hrem]
  have hs : scrape_github now st inp = Outcome.done true st := by
    simp [scrape_github, hc, hw, h403, h200]
  refine ⟨hs, ?_⟩
  simp [runCrawl, hs]

theorem C1_error_continues_witness :
    scrape_github 0 { existing := [], file := [] } c1ErrPage
      = Outcome.done true { existing := [], file := [] } ∧
    (runCrawl 0 { existing := [], file := [] } [c1ErrPage] 5).1
      = 5 :: (runCrawl 0 { existing := [], file := [] } ([] : List PageInput) 6).1 :=
  C1_error_continues 0 { existing := [], file := [] } c1ErrPage 5 []
    (by decide) (by decide) rfl (by decide)

/-! ## The dedup invariant (claim C2) -/

/-- Relation `Grows st st'`: the run can take `st` to `st'` — the ledger only grows,
and the file gains only rows whose names were not yet in the ledger, each of
which is in the final ledger, with no name appended twice. -/
def Grows (st st' : ScrapeState) : Prop :=
  (∀ n, n ∈ st.existing → n ∈ st'.existing) ∧
  ∃ suffix, st'.file = st.file ++ suffix ∧
    (∀ n, n ∈ fileNames suffix → n ∉ st.existing ∧ n ∈ st'.existing) ∧
    (fileNames suffix).Nodup

theorem fileNames_append (a b : List FileLine) :
    fileNames (a ++ b) = fileNames a ++ fileNames b := by
  simp [fileNames, List.filterMap_append]

theorem Grows.rfl {st : ScrapeState} : Grows st st :=
  ⟨fun _ h => h, [], (List.append_nil _).symm,
   fun n hn => absurd hn (List.not_mem_nil n), List.nodup_nil⟩

theorem Grows.trans {s1 s2 s3 : ScrapeState} (h12 : Grows s1 s2) (h23 : Grows s2 s3) :
    Grows s1 s3 := by
  obtain ⟨m12, t1, hf1, hn1, nd1⟩ := h12
  obtain ⟨m23, t2, hf2, hn2, nd2⟩ := h23
  refine ⟨fun n h => m23 n (m12 n h), t1 ++ t2, ?_, ?_, ?_⟩
  · rw [hf2, hf1, List.append_assoc]
  · intro n hn
    rw [fileNames_append] at hn
    rcases List.mem_append.mp hn with h | h
    · exact ⟨(hn1 n h).1, m23 n (hn1 n h).2⟩
    · exact ⟨fun hmem => (hn2 n h).1 (m12 n hmem), (hn2 n h).2⟩
  · rw [fileNames_append]
    exact nd1.append nd2 (fun n ha hb => (hn2 n hb).1 ((hn1 n ha).2))

theorem append_suffix (f : List FileLine) (r : Record) :
    ∃ suffix, append_to_csv f r = f ++ suffix ∧ fileNames suffix = [r.name] := by
  by_cases hf : f = []
  · subst hf
    exact ⟨[FileLine.header, FileLine.data r], rfl, rfl⟩
  · exact ⟨[FileLine.data r], by simp [append_to_csv, hf], rfl⟩

/-- The state after one candidate is either unchanged or the dedup-checked
admission: the record's name is the candidate's login, it was not in the
ledger, and it is added to the ledger together with the file append. -/
theorem processCandidate_state (now : Int) (st : ScrapeState) (c : CandidateInput) :
    (processCandidate now st c).1 = st ∨
    ∃ r : Record, r.name = c.login ∧ c.login ∉ st.existing ∧
      (processCandidate now st c).1 =
        { existing := c.login :: st.existing, file := append_to_csv st.file r } := by
  cases hp : c.profileResp with
  | none => left; simp [processCandidate, hp]
  | some pd =>
    by_cases hd : c.login ∈ st.existing
    · left; simp [processCandidate, hp, hd]
    · cases hco : is_excluded_company pd.company
      · cases hin : is_excluded_industry pd.bio
        · cases hrole : extract_senior_title pd.bio with
          | none => left; simp [processCandidate, hp, hd, hco, hin, hrole]
          | some role =>
            by_cases hge : 5 ≤ get_recent_commit_count now c.eventsResp
            · right
              exact ⟨mkRecord c.login pd role (get_recent_commit_count now c.eventsResp),
                rfl, hd, by simp [processCandidate, hp, hd, hco, hin, hrole, hge]⟩
            · left; simp [processCandidate, hp, hd, hco, hin, hrole, hge]
        · left; simp [processCandidate, hp, hd, hco, hin]
      · left; simp [processCandidate, hp, hd, hco]

theorem processCandidate_grows (now : Int) (st : ScrapeState) (c : CandidateInput) :
    Grows st (processCandidate now st c).1 := by
  rcases processCandidate_state now st c with h | ⟨r, hname, hd, h⟩
  · rw [h]; exact Grows.rfl
  · rw [h]
    obtain ⟨suffix, hsuf, hnames⟩ := append_suffix st.file r
    refine ⟨fun n hn => List.mem_cons_of_mem _ hn, suffix, hsuf, ?_, ?_⟩
    · intro n hn
      rw [hnames, List.mem_singleton] at hn
      subst hn
      rw [hname]
      exact ⟨hd, List.mem_cons_self _ _⟩
    · rw [hnames]
      exact List.nodup_singleton _

theorem processPage_grows (now : Int) :
    ∀ (cs : List CandidateInput) (st : ScrapeState), Grows st (processPage now st cs)
  | [], _ => Grows.rfl
  | c :: cs, st =>
    Grows.trans (processCandidate_grows now st c)
      (processPage_grows now cs (processCandidate now st c).1)

/-- The possible outcomes of one `scrape_github` invocation, state-wise. -/
theorem scrape_github_state (now : Int) (st : ScrapeState) (inp : PageInput) :
    (∃ msg, scrape_github now st inp = Outcome.crash msg) ∨
    scrape_github now st inp = Outcome.retrySamePage st ∨
    scrape_github now st inp = Outcome.done false st ∨
    scrape_github now st inp = Outcome.done true st ∨
    scrape_github now st inp = Outcome.done true (processPage now st inp.items) := by
  unfold scrape_github
  cases hc : check_rate_limit inp.rateLimit with
  | none => exact Or.inl ⟨"TypeError", rfl⟩
  | some pr =>
    obtain ⟨rem, rst⟩ := pr
    cases hw : rateLimitWait rem rst now with
    | none => exact Or.inl ⟨"ValueError", by simp [hw]⟩
    | some w =>
      by_cases h403 : inp.searchStatus = 403
      · simp [hw, h403]
      · by_cases h200 : inp.searchStatus = 200
        · by_cases hempty : inp.items.isEmpty
          · simp [hw, h403, h200, hempty]
          · simp [hw, h403, h200, hempty]
        · simp [hw, h403, h200]

theorem runCrawl_grows (now : Int) :
    ∀ (ps : List PageInput) (st : ScrapeState) (page : Nat),
      Grows st (runCrawl now st ps page).2
  | [], _, _ => Grows.rfl
  | p :: ps, st, page => by
    rcases scrape_github_state now st p with ⟨msg, h⟩ | h | h | h | h <;>
      simp only [runCrawl, h]
    · exact Grows.rfl
    · exact runCrawl_grows now ps st page
    · exact Grows.rfl
    · exact runCrawl_grows now ps st (page + 1)
    · exact Grows.trans (processPage_grows now p.items st)
        (runCrawl_grows now ps (processPage now st p.items) (page + 1))

/-- Claim C2: an identity in the Dedup Ledger is rejected (`AlreadyKnown`)
and never re-appended; a run seeded from a persisted file appends only rows
whose names are outside the loaded ledger, each at most once, and on a
well-formed file (header first) the loaded ledger is exactly the set of
persisted names — so a restart never re-admits a previously admitted
identity and the file grows only with new identities. -/
theorem C2_dedup_ledger :
    (∀ (now : Int) (st : ScrapeState) (c : CandidateInput) (pd : Profile),
      c.profileResp = some pd → c.login ∈ st.existing →
      processCandidate now st c
        = (st, Verdict.alreadyKnown, [NetCall.fetchProfile c.login])) ∧
    (∀ (now : Int) (inputs : List PageInput) (page : Nat) (f : List FileLine),
      ∃ suffix,
        ((runCrawl now { existing := load_existing_users f, file := f } inputs page).2).file
          = f ++ suffix ∧
        (∀ n, n ∈ fileNames suffix → n ∉ load_existing_users f) ∧
        (fileNames suffix).Nodup) ∧
    (∀ f : List FileLine, f.head? = some FileLine.header →
      load_existing_users f = fileNames f) := by
  refine ⟨?_, ?_, ?_⟩
  · intro now st c pd hp hd
    simp [processCandidate, hp, hd]
  · intro now inputs page f
    obtain ⟨mono, suffix, hsuf, hmem, hnd⟩ :=
      runCrawl_grows now inputs { existing := load_existing_users f, file := f } page
    exact ⟨suffix, hsuf, fun n hn => (hmem n hn).1, hnd⟩
  · intro f hf
    cases f with
    | nil => simp at hf
    | cons l rows =>
      simp only [List.head?_cons, Option.some_inj] at hf
      subst hf
      simp [load_existing_users, fileNames]

def c2Rec : Record :=
  { name := "alice", location := "", followers := 0, repos := 0, url := "",
    recent_commits := 5, role := "Director" }

def c2File : List FileLine := [FileLine.header, FileLine.data c2Rec]

def c2Profile : Profile :=
  { login := "alice", company := "", bio := "director", location := "",
    followers := 0, public_repos := 0, html_url := "" }

def c2Page : PageInput :=
  { rateLimit := { status := 200, search_remaining := 9, search_reset := 0 },
    searchStatus := 200,
    items := [{ login := "alice", profileResp := some c2Profile,
                eventsResp := some [] }] }

theorem C2_dedup_ledger_witness :
    (processCandidate 0 { existing := ["alice"], file := c2File }
        { login := "alice", profileResp := some c2Profile, eventsResp := some [] }
      = ({ existing := ["alice"], file := c2File }, Verdict.alreadyKnown,
         [NetCall.fetchProfile "alice"])) ∧
    (∃ suffix,
      ((runCrawl 0 { existing := load_existing_users c2File, file := c2File }
          [c2Page] 1).2).file = c2File ++ suffix ∧
      (∀ n, n ∈ fileNames suffix → n ∉ load_existing_users c2File) ∧
      (fileNames suffix).Nodup) ∧
    load_existing_users c2File = fileNames c2File :=
  ⟨C2_dedup_ledger.1 0 { existing := ["alice"], file := c2File }
      { login := "alice", profileResp := some c2Profile, eventsResp := some [] }
      c2Profile rfl (by decide),
   C2_dedup_ledger.2.1 0 [c2Page] 1 c2File,
   C2_dedup_ledger.2.2 c2File rfl⟩

end Scraper
